import Mathlib

/-!
Shallow embedding of the snake game in `snake.py`.

Cells are integer pairs; the grid is `[0, GRID_WIDTH) × [0, GRID_HEIGHT)`.
Python's in-place mutation becomes explicit state passing: each operation
takes a state and returns the new state.  Operations that can raise
(indexing an empty body) or that loop on a random source return `Option`.
Randomness (`random.choice`, `random.randint`) is modelled by passing the
drawn values explicitly: a stream `ℕ → ℤ × ℤ` of samples for food
placement and a direction argument for `reset`; theorems quantify over all
streams whose values satisfy what the library call guarantees
(`random.randint(0, n-1)` is always in `[0, n)`).
-/

/-- `SCREEN_WIDTH = 800` from snake.py. -/
def SCREEN_WIDTH : ℕ := 800

/-- `SCREEN_HEIGHT = 600` from snake.py. -/
def SCREEN_HEIGHT : ℕ := 600

/-- `GRID_SIZE = 20` from snake.py. -/
def GRID_SIZE : ℕ := 20

/-- `GRID_WIDTH = SCREEN_WIDTH // GRID_SIZE` (integer division). -/
def GRID_WIDTH : ℕ := SCREEN_WIDTH / GRID_SIZE

/-- `GRID_HEIGHT = SCREEN_HEIGHT // GRID_SIZE` (integer division). -/
def GRID_HEIGHT : ℕ := SCREEN_HEIGHT / GRID_SIZE

/-- `INITIAL_FPS = 10` from snake.py. -/
def INITIAL_FPS : ℕ := 10

/-- `FPS_INCREASE_RATE = 5` from snake.py. -/
def FPS_INCREASE_RATE : ℕ := 5

/-- The eight RGB snake colors of `SNAKE_COLORS` in snake.py. -/
def SNAKE_COLORS : List (ℕ × ℕ × ℕ) :=
  [(0, 255, 0), (0, 200, 255), (255, 255, 0), (255, 0, 255),
   (0, 255, 255), (255, 165, 0), (138, 43, 226), (255, 105, 180)]

/-- `UP = (0, -1)`. -/
def UP : ℤ × ℤ := (0, -1)

/-- `DOWN = (0, 1)`. -/
def DOWN : ℤ × ℤ := (0, 1)

/-- `LEFT = (-1, 0)`. -/
def LEFT : ℤ × ℤ := (-1, 0)

/-- `RIGHT = (1, 0)`. -/
def RIGHT : ℤ × ℤ := (1, 0)

/-- A cell lies inside the playable grid:
`0 <= x < GRID_WIDTH and 0 <= y < GRID_HEIGHT` (the test at line 79 of
snake.py). -/
def inGrid (c : ℤ × ℤ) : Prop :=
  0 ≤ c.1 ∧ c.1 < (GRID_WIDTH : ℤ) ∧ 0 ≤ c.2 ∧ c.2 < (GRID_HEIGHT : ℤ)

instance (c : ℤ × ℤ) : Decidable (inGrid c) := by
  unfold inGrid; infer_instance

/-- The mutable fields of the Python `Snake` object. -/
structure Snake where
  positions : List (ℤ × ℤ)
  direction : ℤ × ℤ
  next_direction : Option (ℤ × ℤ)
  score : ℕ
  color_index : ℕ
  grow_pending : ℕ
deriving DecidableEq

/-- `Snake.reset`: single-cell body at the grid center, a caller-chosen
(random) initial direction, `next_direction = direction`, zero score, color
index and growth.  The random `random.choice([UP, DOWN, LEFT, RIGHT])` is
passed in as `d`. -/
def Snake.reset (d : ℤ × ℤ) : Snake :=
  { positions := [((GRID_WIDTH : ℤ) / 2, (GRID_HEIGHT : ℤ) / 2)]
    direction := d
    next_direction := some d
    score := 0
    color_index := 0
    grow_pending := 0 }

/-- `Snake.get_head_position`: `self.positions[0]`; `none` when the body is
empty (Python would raise `IndexError`). -/
def Snake.get_head_position (s : Snake) : Option (ℤ × ℤ) :=
  s.positions.head?

/-- `Snake.change_direction`: buffer the requested direction,
unconditionally overwriting any previous pending value. -/
def Snake.change_direction (s : Snake) (new_direction : ℤ × ℤ) : Snake :=
  { s with next_direction := some new_direction }

/-- Lines 65–70 of `Snake.update`: adopt the buffered direction unless it
is the exact opposite of the current one; the buffer is cleared only on a
successful adoption.  (A Python direction tuple is always truthy, so the
`if self.next_direction` guard is exactly `next_direction != None`.) -/
def Snake.adoptDirection (s : Snake) : Snake :=
  match s.next_direction with
  | none => s
  | some nd =>
      if (nd.1 * (-1), nd.2 * (-1)) ≠ s.direction then
        { s with direction := nd, next_direction := none }
      else
        s

/-- `Snake.update`: adopt the buffered direction, compute the new head,
check walls, check self-collision (with the vacating-tail exemption), then
move, consuming one pending growth unit if any.  Returns the new state and
the game-over flag; `none` models the `IndexError` on an empty body. -/
def Snake.update (s : Snake) : Option (Snake × Bool) :=
  let s1 := s.adoptDirection
  match s1.positions with
  | [] => none
  | p :: rest =>
      let body := p :: rest
      let new_head_pos : ℤ × ℤ := (p.1 + s1.direction.1, p.2 + s1.direction.2)
      if ¬ inGrid new_head_pos then
        some (s1, true)
      else if new_head_pos ∈ body then
        if body.getLast? = some new_head_pos ∧ s1.grow_pending = 0 then
          some ({ s1 with positions := (new_head_pos :: body).dropLast }, false)
        else
          some (s1, true)
      else if s1.grow_pending > 0 then
        some ({ s1 with positions := new_head_pos :: body,
                        grow_pending := s1.grow_pending - 1 }, false)
      else
        some ({ s1 with positions := (new_head_pos :: body).dropLast }, false)

/-- `Snake.grow`: one more pending growth unit, one more point, and a color
change when the new score is positive and divisible by 10. -/
def Snake.grow (s : Snake) : Snake :=
  let s1 := { s with grow_pending := s.grow_pending + 1, score := s.score + 1 }
  if s1.score > 0 ∧ s1.score % 10 = 0 then
    { s1 with color_index := (s1.color_index + 1) % SNAKE_COLORS.length }
  else
    s1

/-- `Food.randomize_position`: resample until the drawn cell avoids
`excl`.  The Python loop is unbounded (`while True`); `fuel` bounds how
many iterations we observe, `start` indexes into the sample stream, and
`none` means the loop has not terminated within `fuel` attempts. -/
def randomize_position (stream : ℕ → ℤ × ℤ) (excl : List (ℤ × ℤ)) :
    ℕ → ℕ → Option (ℤ × ℤ)
  | _, 0 => none
  | start, fuel + 1 =>
      if stream start ∈ excl then
        randomize_position stream excl (start + 1) fuel
      else
        some (stream start)

/-- The game-session state of `main`: the snake, the food position and the
`game_over` flag. -/
structure GameState where
  snake : Snake
  food : ℤ × ℤ
  game_over : Bool
deriving DecidableEq

/-- One pass of the game-logic block of `main` (lines 256–263): update the
snake, flip `game_over` on collision, otherwise grow and relocate the food
when the head landed on it.  Does nothing when the game is already over.
`none` models an exception or a food-relocation loop that has not
terminated within `fuel` samples. -/
def tick (stream : ℕ → ℤ × ℤ) (fuel : ℕ) (g : GameState) : Option GameState :=
  if g.game_over then
    some g
  else
    match g.snake.update with
    | none => none
    | some (s', collided) =>
        if collided then
          some { g with snake := s', game_over := true }
        else if s'.get_head_position = some g.food then
          let s2 := s'.grow
          match randomize_position stream s2.positions 0 fuel with
          | none => none
          | some f => some { snake := s2, food := f, game_over := false }
        else
          some { g with snake := s' }

/-- The keys `main` reacts to; `other` is any key that is none of the six
bound ones (in particular any key carrying no valid direction). -/
inductive Key where
  | up
  | down
  | left
  | right
  | r
  | q
  | other (code : ℕ)
deriving DecidableEq

/-- The restart branch of `main` (lines 238–242): reset the snake (with the
freshly drawn random direction `d`) and relocate the food off the new body. -/
def restart (stream : ℕ → ℤ × ℤ) (fuel : ℕ) (d : ℤ × ℤ) : Option GameState :=
  match randomize_position stream (Snake.reset d).positions 0 fuel with
  | none => none
  | some f => some { snake := Snake.reset d, food := f, game_over := false }

/-- The `KEYDOWN` handling of `main` (lines 236–253): while `game_over`,
only R (restart) and Q (quit, clearing the running flag) act; during play,
only the four arrow keys act, buffering a direction.  Every other key in
either mode is a no-op.  Returns the new state and the running flag. -/
def handle_keydown (stream : ℕ → ℤ × ℤ) (fuel : ℕ) (d : ℤ × ℤ) (k : Key)
    (g : GameState) (running : Bool) : Option (GameState × Bool) :=
  if g.game_over then
    match k with
    | Key.r => (restart stream fuel d).map (fun g' => (g', running))
    | Key.q => some (g, false)
    | _ => some (g, running)
  else
    match k with
    | Key.up => some ({ g with snake := g.snake.change_direction UP }, running)
    | Key.down => some ({ g with snake := g.snake.change_direction DOWN }, running)
    | Key.left => some ({ g with snake := g.snake.change_direction LEFT }, running)
    | Key.right => some ({ g with snake := g.snake.change_direction RIGHT }, running)
    | _ => some (g, running)

/-- `current_fps = INITIAL_FPS + (snake.score // FPS_INCREASE_RATE)`
(line 282 of snake.py). -/
def current_fps (score : ℕ) : ℕ :=
  INITIAL_FPS + score / FPS_INCREASE_RATE

/-- The session states `main` can reach: the initial construction
(lines 223–225: a fresh snake with some random direction, food relocated
off its body), plus any interleaving of key handling and game ticks. -/
inductive Reachable : GameState → Prop where
  | init (d : ℤ × ℤ) (hd : d ∈ [UP, DOWN, LEFT, RIGHT])
      (stream : ℕ → ℤ × ℤ) (fuel : ℕ) (f : ℤ × ℤ)
      (hf : randomize_position stream (Snake.reset d).positions 0 fuel = some f) :
      Reachable { snake := Snake.reset d, food := f, game_over := false }
  | keydown (g g' : GameState) (stream : ℕ → ℤ × ℤ) (fuel : ℕ) (d : ℤ × ℤ)
      (k : Key) (running r' : Bool) (hd : d ∈ [UP, DOWN, LEFT, RIGHT])
      (hg : Reachable g)
      (h : handle_keydown stream fuel d k g running = some (g', r')) :
      Reachable g'
  | tick (g g' : GameState) (stream : ℕ → ℤ × ℤ) (fuel : ℕ)
      (hg : Reachable g) (h : tick stream fuel g = some g') :
      Reachable g'

/-- A sample stream that always draws the cell `(0, 0)` (one possible
behavior of `random.randint(0, GRID_WIDTH - 1)` / `random.randint(0,
GRID_HEIGHT - 1)`). -/
def constStream : ℕ → ℤ × ℤ := fun _ => (0, 0)

/-- Every cell of the `GRID_WIDTH × GRID_HEIGHT` grid, as an excluded set
that covers the whole grid. -/
def fullGridCells : List (ℤ × ℤ) :=
  (List.range GRID_WIDTH).flatMap fun x =>
    (List.range GRID_HEIGHT).map fun y => ((x : ℤ), (y : ℤ))

/-- The `while True` loop of `Food.randomize_position` has not produced a
cell after any finite number of attempts: the relocation livelocks. -/
def relocationLivelocks (stream : ℕ → ℤ × ℤ) (excl : List (ℤ × ℤ)) : Prop :=
  ∀ start fuel, randomize_position stream excl start fuel = none

/-- A one-segment snake at `(5, 5)` heading right, used to instantiate the
general theorems at a concrete state. -/
def sampleSnake : Snake :=
  { positions := [(5, 5)]
    direction := (1, 0)
    next_direction := none
    score := 0
    color_index := 0
    grow_pending := 0 }

/-- The trajectory of `sampleSnake` after buffering the reversal `(-1, 0)`:
the buffered reversal is ignored and the snake keeps moving right. -/
def reversalTraj : ℕ → Snake := fun i =>
  match i with
  | 0 => { positions := [(5, 5)], direction := (1, 0),
           next_direction := some (-1, 0), score := 0, color_index := 0,
           grow_pending := 0 }
  | 1 => { positions := [(6, 5)], direction := (1, 0),
           next_direction := some (-1, 0), score := 0, color_index := 0,
           grow_pending := 0 }
  | _ => { positions := [(7, 5)], direction := (1, 0),
           next_direction := some (-1, 0), score := 0, color_index := 0,
           grow_pending := 0 }

/-- The trajectory of `sampleSnake.grow` under two collision-free updates:
the pending growth is realized on the first update. -/
def growthTraj : ℕ → Snake := fun i =>
  match i with
  | 0 => { positions := [(5, 5)], direction := (1, 0),
           next_direction := none, score := 1, color_index := 0,
           grow_pending := 1 }
  | 1 => { positions := [(6, 5), (5, 5)], direction := (1, 0),
           next_direction := none, score := 1, color_index := 0,
           grow_pending := 0 }
  | _ => { positions := [(7, 5), (6, 5)], direction := (1, 0),
           next_direction := none, score := 1, color_index := 0,
           grow_pending := 0 }

/-- A four-segment snake curled so that its next head cell is exactly its
current tail cell `(5, 4)`. -/
def loopedSnake : Snake :=
  { positions := [(5, 5), (4, 5), (4, 4), (5, 4)]
    direction := (0, -1)
    next_direction := none
    score := 0
    color_index := 0
    grow_pending := 0 }

/-- A playing-state session used to instantiate the session-level theorems. -/
def sampleSession : GameState :=
  { snake := Snake.reset RIGHT
    food := (0, 0)
    game_over := false }

/-! ### Basic lemmas about the embedded operations -/

lemma Snake.adopt_positions (s : Snake) :
    s.adoptDirection.positions = s.positions := by
  unfold Snake.adoptDirection
  cases s.next_direction with
  | none => rfl
  | some nd => dsimp only; split <;> rfl

lemma Snake.adopt_grow_pending (s : Snake) :
    s.adoptDirection.grow_pending = s.grow_pending := by
  unfold Snake.adoptDirection
  cases s.next_direction with
  | none => rfl
  | some nd => dsimp only; split <;> rfl

lemma Snake.update_eq_of_cons (s : Snake) (p : ℤ × ℤ) (rest : List (ℤ × ℤ))
    (h : s.adoptDirection.positions = p :: rest) :
    s.update =
      (if ¬ inGrid (p.1 + s.adoptDirection.direction.1,
                    p.2 + s.adoptDirection.direction.2) then
        some (s.adoptDirection, true)
      else if (p.1 + s.adoptDirection.direction.1,
               p.2 + s.adoptDirection.direction.2) ∈ (p :: rest) then
        if (p :: rest).getLast? = some (p.1 + s.adoptDirection.direction.1,
                                        p.2 + s.adoptDirection.direction.2) ∧
            s.adoptDirection.grow_pending = 0 then
          some ({ s.adoptDirection with
                  positions := ((p.1 + s.adoptDirection.direction.1,
                                 p.2 + s.adoptDirection.direction.2) ::
                                (p :: rest)).dropLast }, false)
        else
          some (s.adoptDirection, true)
      else if s.adoptDirection.grow_pending > 0 then
        some ({ s.adoptDirection with
                positions := (p.1 + s.adoptDirection.direction.1,
                              p.2 + s.adoptDirection.direction.2) :: (p :: rest),
                grow_pending := s.adoptDirection.grow_pending - 1 }, false)
      else
        some ({ s.adoptDirection with
                positions := ((p.1 + s.adoptDirection.direction.1,
                               p.2 + s.adoptDirection.direction.2) ::
                              (p :: rest)).dropLast }, false)) := by
  unfold Snake.update
  dsimp only
  rw [h]

lemma Snake.update_empty (s : Snake) (h : s.positions = []) : s.update = none := by
  unfold Snake.update
  dsimp only
  rw [Snake.adopt_positions s, h]

lemma Snake.grow_positions (s : Snake) : (s.grow).positions = s.positions := by
  unfold Snake.grow
  dsimp only
  split <;> rfl

lemma Snake.update_false_cases (s s' : Snake) (h : s.update = some (s', false)) :
    ∃ nh : ℤ × ℤ,
      s'.positions = nh :: s.positions ∧ 0 < s.grow_pending ∧
          s'.grow_pending = s.grow_pending - 1 ∨
      s'.positions = nh :: s.positions.dropLast ∧ s.grow_pending = 0 ∧
          s'.grow_pending = 0 := by
  rcases hm : s.adoptDirection.positions with _ | ⟨p, rest⟩
  · rw [Snake.update_empty s (by rw [← Snake.adopt_positions s, hm])] at h
    exact absurd h (by simp)
  · rw [Snake.update_eq_of_cons s p rest hm] at h
    have hpos : s.positions = p :: rest := by rw [← Snake.adopt_positions s, hm]
    have hgp := Snake.adopt_grow_pending s
    refine ⟨(p.1 + s.adoptDirection.direction.1, p.2 + s.adoptDirection.direction.2), ?_⟩
    split_ifs at h with h1 h2 h3 h4
    · simp only [Option.some.injEq, Prod.mk.injEq] at h
      obtain ⟨hs, -⟩ := h
      subst hs
      have hz : s.grow_pending = 0 := by rw [← hgp]; exact h3.2
      exact Or.inr ⟨by dsimp only; rw [hpos, List.dropLast_cons₂], hz,
        by dsimp only; rw [hgp]; exact hz⟩
    · exact absurd h (by simp)
    · simp only [Option.some.injEq, Prod.mk.injEq] at h
      obtain ⟨hs, -⟩ := h
      subst hs
      exact Or.inl ⟨by dsimp only; rw [hpos], by rw [← hgp]; exact h4,
        by dsimp only; rw [hgp]⟩
    · simp only [Option.some.injEq, Prod.mk.injEq] at h
      obtain ⟨hs, -⟩ := h
      subst hs
      have hz : s.grow_pending = 0 := by rw [← hgp]; omega
      exact Or.inr ⟨by dsimp only; rw [hpos, List.dropLast_cons₂], hz,
        by dsimp only; rw [hgp]; exact hz⟩
    · exact absurd h (by simp)

lemma Snake.change_direction_positions (s : Snake) (d : ℤ × ℤ) :
    (s.change_direction d).positions = s.positions := rfl

lemma Snake.grow_score (s : Snake) : (s.grow).score = s.score + 1 := by
  unfold Snake.grow
  dsimp only
  split <;> rfl

lemma Snake.grow_grow_pending (s : Snake) :
    (s.grow).grow_pending = s.grow_pending + 1 := by
  unfold Snake.grow
  dsimp only
  split <;> rfl

lemma randomize_position_spec (stream : ℕ → ℤ × ℤ) (excl : List (ℤ × ℤ))
    (start fuel : ℕ) (f : ℤ × ℤ)
    (h : randomize_position stream excl start fuel = some f) :
    f ∉ excl ∧ ∃ i, f = stream i := by
  induction fuel generalizing start with
  | zero => exact absurd h (by simp [randomize_position])
  | succ n ih =>
      unfold randomize_position at h
      split_ifs at h with hmem
      · exact ih (start + 1) h
      · rw [Option.some.injEq] at h
        subst h
        exact ⟨hmem, start, rfl⟩

lemma Snake.update_dir_buffer (s s' : Snake) (b : Bool)
    (h : s.update = some (s', b)) :
    s'.direction = s.adoptDirection.direction ∧
    s'.next_direction = s.adoptDirection.next_direction := by
  rcases hm : s.adoptDirection.positions with _ | ⟨p, rest⟩
  · rw [Snake.update_empty s (by rw [← Snake.adopt_positions s, hm])] at h
    exact absurd h (by simp)
  · rw [Snake.update_eq_of_cons s p rest hm] at h
    split_ifs at h <;>
      · simp only [Option.some.injEq, Prod.mk.injEq] at h
        obtain ⟨hs, -⟩ := h
        subst hs
        exact ⟨rfl, rfl⟩

lemma Snake.adopt_of_reversal (s : Snake)
    (hbuf : s.next_direction = some (-s.direction.1, -s.direction.2)) :
    s.adoptDirection = s := by
  unfold Snake.adoptDirection
  rw [hbuf]
  dsimp only
  rw [if_neg]
  simp [mul_neg_one, neg_neg, Prod.mk.eta]

lemma Snake.update_of_reversal (s s' : Snake) (b : Bool)
    (hbuf : s.next_direction = some (-s.direction.1, -s.direction.2))
    (h : s.update = some (s', b)) :
    s'.direction = s.direction ∧ s'.next_direction = s.next_direction := by
  obtain ⟨hd, hb⟩ := Snake.update_dir_buffer s s' b h
  rw [Snake.adopt_of_reversal s hbuf] at hd hb
  exact ⟨hd, hb⟩

/-! ### The claims -/

/-- C1: whenever the computed new head (head + effective direction) lies
inside the grid and is already occupied by a body cell, `update` signals a
collision, except exactly when the new head is the current tail cell and
`grow_pending = 0`; in that exempt case the move proceeds normally
(new head prepended, tail popped). -/
theorem self_collision_exemption (s : Snake) (p nh : ℤ × ℤ)
    (rest : List (ℤ × ℤ))
    (hpos : s.adoptDirection.positions = p :: rest)
    (hnh : nh = (p.1 + s.adoptDirection.direction.1,
                 p.2 + s.adoptDirection.direction.2))
    (hin : inGrid nh) (hmem : nh ∈ p :: rest) :
    ∃ s' b, s.update = some (s', b) ∧
      (b = false ↔ (p :: rest).getLast? = some nh ∧ s.grow_pending = 0) ∧
      (b = false → s'.positions = nh :: (p :: rest).dropLast) := by
  subst hnh
  rw [Snake.update_eq_of_cons s p rest hpos]
  rw [if_neg (not_not_intro hin), if_pos hmem]
  by_cases hc : (p :: rest).getLast? =
      some (p.1 + s.adoptDirection.direction.1,
            p.2 + s.adoptDirection.direction.2) ∧
      s.adoptDirection.grow_pending = 0
  · rw [if_pos hc]
    refine ⟨_, false, rfl, ?_, ?_⟩
    · exact iff_of_true rfl
        ⟨hc.1, by rw [← Snake.adopt_grow_pending s]; exact hc.2⟩
    · intro _
      dsimp only
      exact List.dropLast_cons₂
  · rw [if_neg hc]
    rw [Snake.adopt_grow_pending s] at hc
    exact ⟨_, true, rfl, iff_of_false (by simp) hc, by simp⟩

/-- Witness for C1: the looped four-segment snake whose next head cell is
its own tail does not collide (growth not pending), and the move happens. -/
theorem self_collision_exemption_witness :
    ∃ s' b, loopedSnake.update = some (s', b) ∧
      (b = false ↔
        ([((5 : ℤ), (5 : ℤ)), (4, 5), (4, 4), (5, 4)] :
            List (ℤ × ℤ)).getLast? = some (5, 4) ∧
        loopedSnake.grow_pending = 0) ∧
      (b = false → s'.positions =
        ((5 : ℤ), (4 : ℤ)) ::
          ([((5 : ℤ), (5 : ℤ)), (4, 5), (4, 4), (5, 4)] :
            List (ℤ × ℤ)).dropLast) :=
  self_collision_exemption loopedSnake (5, 5) (5, 4) [(4, 5), (4, 4), (5, 4)]
    (by decide) (by decide) (by decide) (by decide)

/-- C4: when the new head is off the grid or fatally overlaps the body,
`update` reports the collision by returning the game-over flag `true`
(never by raising: the result is `some`), and the body is unchanged. -/
theorem collision_keeps_body (s : Snake) (p nh : ℤ × ℤ)
    (rest : List (ℤ × ℤ))
    (hpos : s.adoptDirection.positions = p :: rest)
    (hnh : nh = (p.1 + s.adoptDirection.direction.1,
                 p.2 + s.adoptDirection.direction.2))
    (hcol : ¬ inGrid nh ∨
      nh ∈ p :: rest ∧
        ¬((p :: rest).getLast? = some nh ∧ s.grow_pending = 0)) :
    ∃ s', s.update = some (s', true) ∧ s'.positions = s.positions := by
  subst hnh
  rw [Snake.update_eq_of_cons s p rest hpos]
  rcases hcol with hwall | ⟨hmem, hnex⟩
  · rw [if_pos hwall]
    exact ⟨_, rfl, Snake.adopt_positions s⟩
  · rw [← Snake.adopt_grow_pending s] at hnex
    by_cases hin : inGrid (p.1 + s.adoptDirection.direction.1,
                           p.2 + s.adoptDirection.direction.2)
    · rw [if_neg (not_not_intro hin), if_pos hmem, if_neg hnex]
      exact ⟨_, rfl, Snake.adopt_positions s⟩
    · rw [if_pos hin]
      exact ⟨_, rfl, Snake.adopt_positions s⟩

/-- Witness for C4: a one-segment snake at the left wall heading left runs
off the grid; `update` returns `true` and the body is untouched. -/
theorem collision_keeps_body_witness :
    ∃ s', (Snake.mk [(0, 0)] LEFT none 0 0 0).update = some (s', true) ∧
      s'.positions = (Snake.mk [(0, 0)] LEFT none 0 0 0).positions :=
  collision_keeps_body (Snake.mk [(0, 0)] LEFT none 0 0 0) (0, 0) (-1, 0) []
    (by decide) (by decide) (Or.inl (by decide))

/-- C2: after buffering the exact opposite of the current direction, every
subsequent `update` leaves the direction unchanged and leaves the rejected
reversal sitting in the buffer (it is cleared only on a successful adopt),
so the reversal is never adopted on any later update unless a new direction
is submitted. -/
theorem anti_reversal_discard (s : Snake) (N : ℕ) (traj : ℕ → Snake)
    (flag : ℕ → Bool)
    (h0 : traj 0 = s.change_direction (-s.direction.1, -s.direction.2))
    (hstep : ∀ i, i < N → (traj i).update = some (traj (i + 1), flag i)) :
    ∀ i, i ≤ N → (traj i).direction = s.direction ∧
      (traj i).next_direction = some (-s.direction.1, -s.direction.2) := by
  intro i
  induction i with
  | zero => exact fun _ => by rw [h0]; exact ⟨rfl, rfl⟩
  | succ n ih =>
      intro hle
      obtain ⟨hd, hb⟩ := ih (by omega)
      have hrev : (traj n).next_direction =
          some (-(traj n).direction.1, -(traj n).direction.2) := by
        rw [hb, hd]
      obtain ⟨hd', hb'⟩ := Snake.update_of_reversal (traj n) (traj (n + 1))
        (flag n) hrev (hstep n (by omega))
      exact ⟨hd'.trans hd, hb'.trans hb⟩

/-- Witness for C2: the one-segment snake heading right ignores the
buffered reversal for two consecutive updates. -/
theorem anti_reversal_discard_witness :
    (reversalTraj 2).direction = sampleSnake.direction ∧
    (reversalTraj 2).next_direction =
      some (-sampleSnake.direction.1, -sampleSnake.direction.2) :=
  anti_reversal_discard sampleSnake 2 reversalTraj (fun _ => false)
    (by decide) (by decide) 2 (by decide)

/-- C3: from `grow_pending = 0`, one `grow` followed by `N ≥ 1`
collision-free updates lengthens the body by exactly one on the first
update and keeps the length (and a zero growth counter) on every further
update up to `N`. -/
theorem growth_conservation (s : Snake) (N : ℕ) (hN : 1 ≤ N)
    (traj : ℕ → Snake)
    (hgp : s.grow_pending = 0)
    (h0 : traj 0 = s.grow)
    (hstep : ∀ i, i < N → (traj i).update = some (traj (i + 1), false)) :
    ∀ i, 1 ≤ i → i ≤ N →
      (traj i).positions.length = s.positions.length + 1 ∧
      (traj i).grow_pending = 0 := by
  intro i
  induction i with
  | zero => exact fun h1 _ => absurd h1 (by omega)
  | succ n ih =>
      intro _ hle
      rcases Nat.eq_zero_or_pos n with hn | hn
      · subst hn
        obtain ⟨nh, hcase⟩ :=
          Snake.update_false_cases _ _ (hstep 0 (by omega))
        have he : (traj 0).grow_pending = 1 := by
          rw [h0, Snake.grow_grow_pending, hgp]
        rcases hcase with ⟨hpos, -, hgp'⟩ | ⟨-, hz, -⟩
        · constructor
          · rw [hpos, List.length_cons, h0, Snake.grow_positions]
          · rw [hgp', he]
        · rw [he] at hz
          exact absurd hz (by omega)
      · obtain ⟨hlen, hz⟩ := ih (by omega) (by omega)
        obtain ⟨nh, hcase⟩ :=
          Snake.update_false_cases _ _ (hstep n (by omega))
        rcases hcase with ⟨-, hgt, -⟩ | ⟨hpos, -, hgp'⟩
        · rw [hz] at hgt
          exact absurd hgt (by omega)
        · refine ⟨?_, hgp'⟩
          rw [hpos, List.length_cons, List.length_dropLast]
          omega

/-- Witness for C3: `sampleSnake.grow` reaches length 2 after the first
update and stays at length 2 after the second. -/
theorem growth_conservation_witness :
    (growthTraj 2).positions.length = sampleSnake.positions.length + 1 ∧
    (growthTraj 2).grow_pending = 0 :=
  growth_conservation sampleSnake 2 (by decide) growthTraj rfl (by decide)
    (by decide) 2 (by decide) (by decide)

lemma reachable_food_off_body (g : GameState) (hg : Reachable g) :
    g.game_over = false → g.food ∉ g.snake.positions := by
  induction hg with
  | init d hd stream fuel f hf =>
      exact fun _ => (randomize_position_spec stream _ 0 fuel f hf).1
  | keydown g g' stream fuel d k running r' hd hg h ih =>
      intro hover
      unfold handle_keydown at h
      split_ifs at h with hgo
      · cases k with
        | r =>
            dsimp only at h
            unfold restart at h
            rcases hr : randomize_position stream (Snake.reset d).positions
                0 fuel with _ | f
            · rw [hr] at h
              exact absurd h (by simp)
            · rw [hr] at h
              simp only [Option.map_some', Option.some.injEq,
                Prod.mk.injEq] at h
              obtain ⟨hg', -⟩ := h
              rw [← hg']
              exact (randomize_position_spec stream _ 0 fuel f hr).1
        | q =>
            simp only [Option.some.injEq, Prod.mk.injEq] at h
            obtain ⟨hg', -⟩ := h
            rw [← hg'] at hover
            simp [hgo] at hover
        | up =>
            simp only [Option.some.injEq, Prod.mk.injEq] at h
            obtain ⟨hg', -⟩ := h
            rw [← hg'] at hover
            simp [hgo] at hover
        | down =>
            simp only [Option.some.injEq, Prod.mk.injEq] at h
            obtain ⟨hg', -⟩ := h
            rw [← hg'] at hover
            simp [hgo] at hover
        | left =>
            simp only [Option.some.injEq, Prod.mk.injEq] at h
            obtain ⟨hg', -⟩ := h
            rw [← hg'] at hover
            simp [hgo] at hover
        | right =>
            simp only [Option.some.injEq, Prod.mk.injEq] at h
            obtain ⟨hg', -⟩ := h
            rw [← hg'] at hover
            simp [hgo] at hover
        | other code =>
            simp only [Option.some.injEq, Prod.mk.injEq] at h
            obtain ⟨hg', -⟩ := h
            rw [← hg'] at hover
            simp [hgo] at hover
      · have hfalse : g.game_over = false := by simpa using hgo
        cases k with
        | up =>
            simp only [Option.some.injEq, Prod.mk.injEq] at h
            obtain ⟨hg', -⟩ := h
            rw [← hg']
            exact ih hfalse
        | down =>
            simp only [Option.some.injEq, Prod.mk.injEq] at h
            obtain ⟨hg', -⟩ := h
            rw [← hg']
            exact ih hfalse
        | left =>
            simp only [Option.some.injEq, Prod.mk.injEq] at h
            obtain ⟨hg', -⟩ := h
            rw [← hg']
            exact ih hfalse
        | right =>
            simp only [Option.some.injEq, Prod.mk.injEq] at h
            obtain ⟨hg', -⟩ := h
            rw [← hg']
            exact ih hfalse
        | r =>
            simp only [Option.some.injEq, Prod.mk.injEq] at h
            obtain ⟨hg', -⟩ := h
            rw [← hg']
            exact ih hfalse
        | q =>
            simp only [Option.some.injEq, Prod.mk.injEq] at h
            obtain ⟨hg', -⟩ := h
            rw [← hg']
            exact ih hfalse
        | other code =>
            simp only [Option.some.injEq, Prod.mk.injEq] at h
            obtain ⟨hg', -⟩ := h
            rw [← hg']
            exact ih hfalse
  | tick g g' stream fuel hg h ih =>
      intro hover
      unfold tick at h
      split_ifs at h with hgo
      · simp only [Option.some.injEq] at h
        rw [← h] at hover
        simp [hgo] at hover
      · have hfalse : g.game_over = false := by simpa using hgo
        rcases hu : g.snake.update with _ | ⟨s', collided⟩
        · rw [hu] at h
          exact absurd h (by simp)
        · rw [hu] at h
          dsimp only at h
          split_ifs at h with hcol hfood
          · simp only [Option.some.injEq] at h
            rw [← h] at hover
            simp at hover
          · rcases hr : randomize_position stream (s'.grow).positions
                0 fuel with _ | f
            · rw [hr] at h
              exact absurd h (by simp)
            · rw [hr] at h
              simp only [Option.some.injEq] at h
              rw [← h]
              exact (randomize_position_spec stream _ 0 fuel f hr).1
          · simp only [Option.some.injEq] at h
            rw [← h]
            dsimp only
            have hcolf : collided = false := by simpa using hcol
            rw [hcolf] at hu
            obtain ⟨nh, hcase⟩ := Snake.update_false_cases _ _ hu
            have hih := ih hfalse
            intro hmem
            rcases hcase with ⟨hsp, -, -⟩ | ⟨hsp, -, -⟩
            · rw [hsp] at hmem
              rcases List.mem_cons.mp hmem with he | ht
              · apply hfood
                rw [Snake.get_head_position, hsp, he]
                rfl
              · exact hih ht
            · rw [hsp] at hmem
              rcases List.mem_cons.mp hmem with he | ht
              · apply hfood
                rw [Snake.get_head_position, hsp, he]
                rfl
              · exact hih (List.mem_of_mem_dropLast ht)

/-- C5: in every reachable session state still in play (`game_over` is
`false`), the food position is not a cell of the snake's body; the
invariant holds at session start and is preserved by key handling
(including restart) and by every tick. -/
theorem playing_food_not_on_snake (g : GameState) (hg : Reachable g)
    (hover : g.game_over = false) : g.food ∉ g.snake.positions :=
  reachable_food_off_body g hg hover

/-- Witness for C5: the freshly initialized session with food at `(0, 0)`
keeps the food off the one-segment snake at the grid center. -/
theorem playing_food_not_on_snake_witness :
    sampleSession.food ∉ sampleSession.snake.positions :=
  playing_food_not_on_snake sampleSession
    (Reachable.init RIGHT (by decide) constStream 1 (0, 0) (by decide)) rfl

/-- C6: whatever the excluded set, whenever the relocation loop returns,
the returned food position is a grid cell (given that every drawn sample
is a grid cell, as `random.randint(0, GRID_WIDTH - 1)` and
`random.randint(0, GRID_HEIGHT - 1)` guarantee) and is not an element of
the excluded set. -/
theorem food_exclusivity (stream : ℕ → ℤ × ℤ)
    (hstream : ∀ i, inGrid (stream i)) (excl : List (ℤ × ℤ))
    (start fuel : ℕ) (f : ℤ × ℤ)
    (h : randomize_position stream excl start fuel = some f) :
    inGrid f ∧ f ∉ excl := by
  obtain ⟨hnot, i, hi⟩ := randomize_position_spec stream excl start fuel f h
  exact ⟨hi ▸ hstream i, hnot⟩

/-- Witness for C6: drawing `(0, 0)` against the excluded set
`[(20, 15)]` returns `(0, 0)`, which is in the grid and not excluded. -/
theorem food_exclusivity_witness :
    inGrid ((0 : ℤ), (0 : ℤ)) ∧
    ((0 : ℤ), (0 : ℤ)) ∉ ([((20 : ℤ), (15 : ℤ))] : List (ℤ × ℤ)) :=
  food_exclusivity constStream
    (fun _ => (by decide : inGrid ((0 : ℤ), (0 : ℤ)))) [(20, 15)] 0 1 (0, 0)
    (by decide)

/-- C7 counterexample: against an excluded set covering the whole grid,
the relocation loop of `Food.randomize_position` never returns — after any
finite number of attempts it has produced nothing — so the code neither
caps its attempts nor surfaces an error, and does not terminate on this
input. -/
theorem relocation_unbounded_on_full_grid :
    relocationLivelocks constStream fullGridCells := by
  intro start fuel
  induction fuel generalizing start with
  | zero => rfl
  | succ n ih =>
      unfold randomize_position
      rw [if_pos]
      · exact ih (start + 1)
      · exact (by decide : ((0 : ℤ), (0 : ℤ)) ∈ fullGridCells)

/-- C7 (amended): the relocation loop retries without any bound and
surfaces no error.  Whenever it does return, the cell is outside the
excluded set; if some sample among the first `fuel` drawn avoids the
excluded set the loop returns within those attempts; and if every drawn
sample is excluded (as when the excluded set covers the whole grid) the
loop never returns. -/
theorem relocation_behavior (stream : ℕ → ℤ × ℤ) (excl : List (ℤ × ℤ)) :
    (∀ start fuel f, randomize_position stream excl start fuel = some f →
      f ∉ excl) ∧
    (∀ start fuel, (∃ i, start ≤ i ∧ i < start + fuel ∧ stream i ∉ excl) →
      ∃ f, randomize_position stream excl start fuel = some f) ∧
    ((∀ i, stream i ∈ excl) →
      ∀ start fuel, randomize_position stream excl start fuel = none) := by
  refine ⟨?_, ?_, ?_⟩
  · intro start fuel f h
    exact (randomize_position_spec stream excl start fuel f h).1
  · intro start fuel
    induction fuel generalizing start with
    | zero =>
        rintro ⟨i, h1, h2, -⟩
        exact absurd h2 (by omega)
    | succ n ih =>
        rintro ⟨i, h1, h2, hfree⟩
        unfold randomize_position
        by_cases hmem : stream start ∈ excl
        · rw [if_pos hmem]
          refine ih (start + 1) ⟨i, ?_, by omega, hfree⟩
          rcases Nat.eq_or_lt_of_le h1 with he | hlt
          · exact absurd (he ▸ hfree) (not_not_intro hmem)
          · omega
        · rw [if_neg hmem]
          exact ⟨stream start, rfl⟩
  · intro hall start fuel
    induction fuel generalizing start with
    | zero => rfl
    | succ n ih =>
        unfold randomize_position
        rw [if_pos (hall start)]
        exact ih (start + 1)

/-- Witness for C7's amended statement: with the constant `(0, 0)` stream,
an excluded set that does not contain `(0, 0)` is escaped on the first
attempt, and the full-grid excluded set yields no result in 5 attempts. -/
theorem relocation_behavior_witness :
    (∃ f, randomize_position constStream
      ([((20 : ℤ), (15 : ℤ))] : List (ℤ × ℤ)) 0 1 = some f) ∧
    randomize_position constStream fullGridCells 0 5 = none :=
  ⟨(relocation_behavior constStream [(20, 15)]).2.1 0 1
      ⟨0, by omega, by omega, by decide⟩,
    (relocation_behavior constStream fullGridCells).2.2
      (fun i => (by decide : ((0 : ℤ), (0 : ℤ)) ∈ fullGridCells)) 0 5⟩

/-- C8: while the session is in play (`game_over` is false), a restart
key, a quit key, and any key that carries no direction are each handled as
a strict no-op: the state and the running flag are returned unchanged and
no failure is signalled. -/
theorem invalid_command_noop (stream : ℕ → ℤ × ℤ) (fuel : ℕ) (d : ℤ × ℤ)
    (g : GameState) (running : Bool) (hplay : g.game_over = false) :
    handle_keydown stream fuel d Key.r g running = some (g, running) ∧
    handle_keydown stream fuel d Key.q g running = some (g, running) ∧
    ∀ code, handle_keydown stream fuel d (Key.other code) g running =
      some (g, running) := by
  refine ⟨?_, ?_, fun code => ?_⟩ <;> simp [handle_keydown, hplay]

/-- Witness for C8: restart, quit and an unbound key (code 0) all leave
the freshly initialized playing session untouched. -/
theorem invalid_command_noop_witness :
    handle_keydown constStream 1 UP Key.r sampleSession true =
      some (sampleSession, true) ∧
    handle_keydown constStream 1 UP Key.q sampleSession true =
      some (sampleSession, true) ∧
    handle_keydown constStream 1 UP (Key.other 0) sampleSession true =
      some (sampleSession, true) :=
  ⟨(invalid_command_noop constStream 1 UP sampleSession true rfl).1,
   (invalid_command_noop constStream 1 UP sampleSession true rfl).2.1,
   (invalid_command_noop constStream 1 UP sampleSession true rfl).2.2 0⟩

/-- C9: each `grow` adds exactly one point, and the color index advances
by one modulo the palette size 8 exactly when the resulting score is a
(positive) multiple of 10; growing a fresh snake from score 0 up to 30
gives color tier `k / 10 % 8`, i.e. 0 for scores 1–9, 1 for 10–19, 2 for
20–29 and 3 at 30. -/
theorem grow_score_color (s : Snake) :
    (s.grow).score = s.score + 1 ∧
    ((s.grow).color_index =
      if (s.score + 1) % 10 = 0 then
        (s.color_index + 1) % SNAKE_COLORS.length
      else s.color_index) ∧
    (∀ k, k ≤ 30 → 1 ≤ k →
      (Snake.grow^[k] (Snake.reset RIGHT)).color_index = k / 10 % 8) := by
  refine ⟨Snake.grow_score s, ?_, by decide⟩
  unfold Snake.grow
  dsimp only
  by_cases h : (s.score + 1) % 10 = 0
  · rw [if_pos (show s.score + 1 > 0 ∧ (s.score + 1) % 10 = 0 from
      ⟨by omega, h⟩), if_pos h]
  · rw [if_neg (show ¬(s.score + 1 > 0 ∧ (s.score + 1) % 10 = 0) from
      fun hc => h hc.2), if_neg h]

/-- Witness for C9: growing the fresh snake once keeps tier 0; the tenth
grow reaches tier 1. -/
theorem grow_score_color_witness :
    ((Snake.reset RIGHT).grow).score = (Snake.reset RIGHT).score + 1 ∧
    (Snake.grow^[10] (Snake.reset RIGHT)).color_index = 10 / 10 % 8 :=
  ⟨(grow_score_color (Snake.reset RIGHT)).1,
   (grow_score_color (Snake.reset RIGHT)).2.2 10 (by decide) (by decide)⟩

/-- C10: the paced frame rate is
`current_fps = INITIAL_FPS + score // FPS_INCREASE_RATE = 10 + ⌊score/5⌋`:
it starts at 10 and increases by one exactly when the score crosses a
multiple of 5. -/
theorem fps_formula :
    current_fps 0 = 10 ∧
    (∀ score, current_fps score = 10 + score / 5) ∧
    (∀ score, current_fps (score + 1) =
      current_fps score + if (score + 1) % 5 = 0 then 1 else 0) := by
  refine ⟨rfl, fun score => rfl, fun score => ?_⟩
  unfold current_fps INITIAL_FPS FPS_INCREASE_RATE
  rw [Nat.succ_div]
  by_cases h : (score + 1) % 5 = 0
  · rw [if_pos h, if_pos (Nat.dvd_iff_mod_eq_zero.mpr h)]
    omega
  · rw [if_neg h, if_neg (fun hd => h (Nat.dvd_iff_mod_eq_zero.mp hd))]
    omega
